import Mathlib

/-!
Verification of the ESP8266 ROM bootloader utility (`src/bin/esptool.py`)
against its natural-language specification.

The Python source is shallowly embedded below: byte strings become
`List Nat` (each element a byte value), the serial port becomes the list
of bytes it will yield (an exhausted list models a timed-out
`port.read(1)`, which in pyserial returns the empty string), loops that
are not structurally recursive take an explicit fuel argument, and
raised exceptions become explicit result constructors.
-/

/-! ## Framing layer (`ESPROM.read` / `ESPROM.write`, lines 106-127) -/

/-- Python `s.replace(p, r)` for a single-byte pattern `p`: every
occurrence of `p` is replaced by `r` independently (occurrences of a
one-byte pattern cannot overlap). -/
def replaceByte (p : Nat) (r : List Nat) : List Nat → List Nat
  | [] => []
  | c :: s => (if c = p then r else [c]) ++ replaceByte p r s

/-- The escaped payload built by `ESPROM.write` (line 125):
`packet.replace('\xdb','\xdb\xdd').replace('\xc0','\xdb\xdc')`. -/
def slipEscape (packet : List Nat) : List Nat :=
  replaceByte 0xc0 [0xdb, 0xdc] (replaceByte 0xdb [0xdb, 0xdd] packet)

/-- The buffer `ESPROM.write` sends to the port (lines 124-126):
`'\xc0' + escaped + '\xc0'`. -/
def ESPROM.writeBuf (packet : List Nat) : List Nat :=
  0xc0 :: slipEscape packet ++ [0xc0]

/-- Outcome of the `ESPROM.read` loop: it returns the unescaped bytes and
the unconsumed part of the port stream, raises
`FatalError('Invalid SLIP escape')`, or fails to finish within the given
fuel (the Python `while` has no other exit). -/
inductive ReadRes where
  | ok (bytes rest : List Nat)
  | fatal
  | diverge
deriving DecidableEq

/-- The `while len(b) < length` loop of `ESPROM.read` (lines 106-120).
`chan` is the list of bytes `self._port.read(1)` will yield; when it is
exhausted every port read times out and returns the empty string, after
which `b = b + ''` leaves the accumulator unchanged.  `fuel` bounds the
number of loop iterations. -/
def ESPROM.readLoop : Nat → List Nat → List Nat → Nat → ReadRes
  | 0, _, _, _ => .diverge
  | fuel + 1, chan, b, length =>
    if b.length < length then
      match chan with
      | [] => ESPROM.readLoop fuel [] b length
      | c :: chan1 =>
        if c = 0xdb then
          match chan1 with
          | [] => .fatal
          | c2 :: chan2 =>
            if c2 = 0xdc then ESPROM.readLoop fuel chan2 (b ++ [0xc0]) length
            else if c2 = 0xdd then ESPROM.readLoop fuel chan2 (b ++ [0xdb]) length
            else .fatal
        else ESPROM.readLoop fuel chan1 (b ++ [c]) length
    else .ok b chan

/-! ## Checksum (`ESPROM.checksum`, lines 130-134) -/

/-- `for b in data: state ^= ord(b); return state`.  At every call site
the default seed is `ESP_CHECKSUM_MAGIC = 0xef`. -/
def ESPROM.checksum (data : List Nat) (state : Nat) : Nat :=
  data.foldl (fun st b => st ^^^ b) state

/-! ## Command engine (`ESPROM.command`, lines 137-153) -/

/-- The triple `receive_response` yields (line 148). -/
structure Resp where
  op_ret : Nat
  val : Nat
  body : List Nat

/-- Result of the retry loop of `ESPROM.command`: either the matching
response's `(val, body)` together with the number of `receive_response`
calls made, or the `FatalError("Response doesn't match request")` raised
after the given number of calls. -/
inductive CmdResult where
  | ok (val : Nat) (body : List Nat) (calls : Nat)
  | mismatch (calls : Nat)
deriving DecidableEq

/-- The `while retries > 0` loop (lines 146-153).  `stream i` is the
response returned by the `(i+1)`-th call to `receive_response`; `calls`
counts calls already made.  The request packet written when `op` is
truthy only affects the output channel and is modeled by
`ESPROM.writeBuf`. -/
def ESPROM.commandLoop (op : Option Nat) (stream : Nat → Resp) : Nat → Nat → CmdResult
  | 0, calls => .mismatch calls
  | retries + 1, calls =>
    if op = none ∨ op = some (stream calls).op_ret then
      .ok (stream calls).val (stream calls).body (calls + 1)
    else ESPROM.commandLoop op stream retries (calls + 1)

/-- `ESPROM.command` enters the loop with `retries = 100` (line 146). -/
def ESPROM.command (op : Option Nat) (stream : Nat → Resp) : CmdResult :=
  ESPROM.commandLoop op stream 100 0

/-! ## Flash erase-size computation and `flash_begin` (lines 294-326) -/

/-- The erase size computed inside `ESPROM.flash_begin` (lines 298-321).
Python `/` on non-negative ints is floor division, matching `Nat`
division.  `total_sector_num - 2 * head_sector_num > 0` is evaluated
over the (possibly negative) integers, hence the casts.
`int(math.ceil(total_sector_num/2.0))` equals `(total_sector_num + 1) / 2`
exactly for every count below `2 ^ 53`, where the float is exact. -/
def ESPROM.flashEraseSize (_size offset : Nat) : Nat :=
  let area_len := _size
  let sector_no := offset / 4096
  let sector_num_per_block := 16
  let total_sector_num :=
    if 0 = area_len % 4096 then area_len / 4096 else 1 + area_len / 4096
  let head0 := sector_num_per_block - sector_no % sector_num_per_block
  let head_sector_num := if head0 ≥ total_sector_num then total_sector_num else head0
  if 0 < (total_sector_num : Int) - 2 * (head_sector_num : Int) then
    (total_sector_num - head_sector_num) * 4096
  else
    ((total_sector_num + 1) / 2) * 4096

/-- Stated from the spec's words (§4.4), for comparison with the code's
`ESPROM.flashEraseSize`: `total_sectors = ceil(S / 4096)`,
`head_sectors = min(16 - ((O / 4096) mod 16), total_sectors)`; if
`total_sectors - 2*head_sectors > 0` the erase size is
`(total_sectors - head_sectors) * 4096`, otherwise
`ceil(total_sectors / 2) * 4096`. -/
def specEraseSize (S O : Nat) : Nat :=
  let total_sectors := (S + 4095) / 4096
  let head_sectors := min (16 - (O / 4096) % 16) total_sectors
  if 0 < (total_sectors : Int) - 2 * (head_sectors : Int) then
    (total_sectors - head_sectors) * 4096
  else
    ((total_sectors + 1) / 2) * 4096

/-- The class of a raised Python exception: `FatalError` (the program's
typed failure, class at lines 533-547) or a bare built-in `Exception`. -/
inductive ExcKind where
  | fatalError
  | plainException
deriving DecidableEq

/-- Observable outcome of `ESPROM.flash_begin`: the erase size it sends,
the port timeout when control leaves the method, and the exception
raised, if any. -/
structure FlashBeginOut where
  eraseSize : Nat
  timeout : Nat
  raised : Option ExcKind
deriving DecidableEq

/-- `ESPROM.flash_begin` (lines 294-326): saves `old_tmo`, sets the port
timeout to 10, computes the erase size, sends `ESP_FLASH_BEGIN` and
checks the response body against `"\0\0"`; on failure it raises a bare
`Exception` (line 325) with the timeout still 10, on success it restores
`old_tmo` (line 326).  `respBody` is the body of the device's response
to the flash-begin command. -/
def ESPROM.flash_begin (old_tmo _size offset : Nat) (respBody : List Nat) : FlashBeginOut :=
  let size := ESPROM.flashEraseSize _size offset
  if respBody ≠ [0, 0] then
    { eraseSize := size, timeout := 10, raised := some ExcKind.plainException }
  else
    { eraseSize := size, timeout := old_tmo, raised := none }

/-- The top-level guard (lines 825-830): `except FatalError` prints the
message and calls `sys.exit(2)`; any other exception propagates out of
`main`, and the interpreter exits with status 1 after a traceback. -/
def topLevelExitCode (e : ExcKind) : Nat :=
  match e with
  | ExcKind.fatalError => 2
  | ExcKind.plainException => 1

/-! ## Firmware image codec (`ESPFirmwareImage`, lines 405-458) -/

/-- `struct.pack('<I', x)`: four little-endian bytes.  `pack` raises for
`x ≥ 2^32`; below that bound these four bytes are exact. -/
def u32le (x : Nat) : List Nat :=
  [x % 256, x / 256 % 256, x / 65536 % 256, x / 16777216 % 256]

/-- `struct.unpack('<I', ...)` of four bytes. -/
def decodeU32 (b0 b1 b2 b3 : Nat) : Nat :=
  b0 + 256 * b1 + 65536 * b2 + 16777216 * b3

/-- One `(offset, size, data)` tuple of `self.segments`. -/
structure Segment where
  offset : Nat
  size : Nat
  data : List Nat
deriving DecidableEq

/-- The in-memory image an `ESPFirmwareImage` carries into `save`
(lines 407-411 set these fields; `magic` is the constant `0xe9`). -/
structure ESPFirmwareImage where
  segments : List Segment
  entrypoint : Nat
  flash_mode : Nat
  flash_size_freq : Nat
deriving DecidableEq

/-- The image `ESPFirmwareImage.__init__(filename)` builds from a file,
including the trailing checksum byte it stores (line 435). -/
structure ParsedImage where
  segments : List Segment
  entrypoint : Nat
  flash_mode : Nat
  flash_size_freq : Nat
  checksum : Nat
deriving DecidableEq

/-- Bytes `save` writes for one segment (lines 452-453):
`struct.pack('<II', offset, size)` then the raw data. -/
def segmentBytes (s : Segment) : List Nat :=
  u32le s.offset ++ u32le s.size ++ s.data

/-- Bytes of the whole segment table, in order. -/
def segmentsBytes : List Segment → List Nat
  | [] => []
  | s :: t => segmentBytes s ++ segmentsBytes t

/-- The running checksum of `save` (lines 450-454): seeded with
`ESP_CHECKSUM_MAGIC` and folded with `ESPROM.checksum` over each
segment's payload bytes (never the segment headers). -/
def saveChecksum : List Segment → Nat → Nat
  | [], state => state
  | s :: t, state => saveChecksum t (ESPROM.checksum s.data state)

/-- `ESPFirmwareImage.save` (lines 445-458): 8-byte header, the segment
table, then `f.seek(15 - tell % 16, 1)` — which zero-fills the skipped
gap of a freshly created file — and the single checksum byte.
`struct.pack` would raise for field values outside `u8`/`u32`; the
theorems below assume byte-ranged fields, under which these bytes are
exactly what the Python writes. -/
def ESPFirmwareImage.save (img : ESPFirmwareImage) : List Nat :=
  let header := 0xe9 :: img.segments.length :: img.flash_mode ::
    img.flash_size_freq :: u32le img.entrypoint
  let body := segmentsBytes img.segments
  let cks := saveChecksum img.segments 0xef
  let align := 15 - (header.length + body.length) % 16
  header ++ body ++ List.replicate align 0 ++ [cks]

/-- The exceptions `ESPFirmwareImage.__init__` can raise while parsing:
`FatalError('Invalid firmware image')` (bad magic or more than 16
segments, line 419), `FatalError('Suspicious segment ...')` (line 424),
`FatalError('End of file reading segment ...')` (line 427), and the
`struct.error`/`TypeError` a short `f.read` feeds into `unpack`/`ord`. -/
inductive ImgErr where
  | invalidImage
  | suspiciousSegment (offset size : Nat)
  | endOfFile (offset size actual : Nat)
  | shortRead
deriving DecidableEq

/-- The segment-reading loop (lines 421-428) over the remaining file
bytes `s`, with `pos` the file position `f.tell()` already consumed.
Errors carry the position at the raise, i.e. how many bytes of the file
were read before failing.  On success returns the parsed segments, the
unread bytes, and the new position. -/
def parseSegments : Nat → List Nat → Nat → Except (ImgErr × Nat) (List Segment × List Nat × Nat)
  | 0, s, pos => .ok ([], s, pos)
  | n + 1, s, pos =>
    match s with
    | o0 :: o1 :: o2 :: o3 :: z0 :: z1 :: z2 :: z3 :: rest =>
      let offset := decodeU32 o0 o1 o2 o3
      let size := decodeU32 z0 z1 z2 z3
      if 0x40200000 < offset ∨ offset < 0x3ffe0000 ∨ 65536 < size then
        .error (.suspiciousSegment offset size, pos + 8)
      else
        let segment_data := rest.take size
        if segment_data.length < size then
          .error (.endOfFile offset size segment_data.length, pos + 8 + segment_data.length)
        else
          match parseSegments n (rest.drop size) (pos + 8 + size) with
          | .error e => .error e
          | .ok (segs, s2, pos2) => .ok (⟨offset, size, segment_data⟩ :: segs, s2, pos2)
    | _ => .error (.shortRead, pos + s.length)

/-- `ESPFirmwareImage.__init__(filename)` (lines 413-435): unpack the
8-byte `<BBBBI` header, check `magic == 0xe9` and `segments <= 16`, read
the segment table, skip `15 - tell % 16` padding bytes and read the
trailing checksum byte. -/
def ESPFirmwareImage.parse (file : List Nat) : Except (ImgErr × Nat) ParsedImage :=
  match file with
  | magic :: segments :: flash_mode :: flash_size_freq :: e0 :: e1 :: e2 :: e3 :: rest =>
    if magic ≠ 0xe9 ∨ 16 < segments then .error (.invalidImage, 8)
    else
      match parseSegments segments rest 8 with
      | .error e => .error e
      | .ok (segs, s2, pos) =>
        let align := 15 - pos % 16
        match s2.drop align with
        | c :: _ => .ok ⟨segs, decodeU32 e0 e1 e2 e3, flash_mode, flash_size_freq, c⟩
        | [] => .error (.shortRead, pos + align)
  | _ => .error (.shortRead, file.length)

/-! ## Framing layer lemmas -/

theorem replaceByte_append (p : Nat) (r l1 l2 : List Nat) :
    replaceByte p r (l1 ++ l2) = replaceByte p r l1 ++ replaceByte p r l2 := by
  induction l1 with
  | nil => rfl
  | cons c s ih => simp [replaceByte, ih]

theorem slipEscape_cons (x : Nat) (t : List Nat) :
    slipEscape (x :: t) =
      (if x = 0xdb then [0xdb, 0xdd] else if x = 0xc0 then [0xdb, 0xdc] else [x]) ++
        slipEscape t := by
  by_cases hdb : x = 0xdb
  · subst hdb; simp [slipEscape, replaceByte, replaceByte_append]
  · by_cases hc0 : x = 0xc0
    · subst hc0; simp [slipEscape, replaceByte, replaceByte_append, hdb]
    · simp [slipEscape, replaceByte, replaceByte_append, hdb, hc0]

theorem readLoop_done (fuel : Nat) (chan b : List Nat) (length : Nat)
    (h : ¬ b.length < length) :
    ESPROM.readLoop (fuel + 1) chan b length = ReadRes.ok b chan := by
  simp [ESPROM.readLoop, h]

theorem readLoop_step_plain (fuel c : Nat) (chan b : List Nat) (length : Nat)
    (h : b.length < length) (hc : c ≠ 0xdb) :
    ESPROM.readLoop (fuel + 1) (c :: chan) b length =
      ESPROM.readLoop fuel chan (b ++ [c]) length := by
  simp [ESPROM.readLoop, h, hc]

theorem readLoop_step_dc (fuel : Nat) (chan b : List Nat) (length : Nat)
    (h : b.length < length) :
    ESPROM.readLoop (fuel + 1) (0xdb :: 0xdc :: chan) b length =
      ESPROM.readLoop fuel chan (b ++ [0xc0]) length := by
  simp [ESPROM.readLoop, h]

theorem readLoop_step_dd (fuel : Nat) (chan b : List Nat) (length : Nat)
    (h : b.length < length) :
    ESPROM.readLoop (fuel + 1) (0xdb :: 0xdd :: chan) b length =
      ESPROM.readLoop fuel chan (b ++ [0xdb]) length := by
  simp [ESPROM.readLoop, h]

theorem readLoop_slipEscape (b : List Nat) : ∀ acc rest : List Nat,
    ESPROM.readLoop (b.length + 1) (slipEscape b ++ rest) acc (acc.length + b.length) =
      ReadRes.ok (acc ++ b) rest := by
  induction b with
  | nil =>
    intro acc rest
    have h : ¬ acc.length < acc.length + 0 := by omega
    simpa [slipEscape, replaceByte] using readLoop_done 0 rest acc (acc.length + 0) h
  | cons x t ih =>
    intro acc rest
    have hlt : acc.length < acc.length + (t.length + 1) := by omega
    have hlen : acc.length + (t.length + 1) = (acc ++ [x]).length + t.length := by
      simp; omega
    rw [slipEscape_cons]
    by_cases hdb : x = 0xdb
    · subst hdb
      simp only [if_true, List.cons_append, List.nil_append, List.append_assoc,
        List.length_cons]
      rw [readLoop_step_dd (t.length + 1) (slipEscape t ++ rest) acc _ hlt, hlen,
        show acc ++ 0xdb :: t = (acc ++ [0xdb]) ++ t by simp]
      exact ih (acc ++ [0xdb]) rest
    · by_cases hc0 : x = 0xc0
      · subst hc0
        simp only [hdb, if_false, if_true, List.cons_append, List.nil_append,
          List.append_assoc, List.length_cons]
        rw [readLoop_step_dc (t.length + 1) (slipEscape t ++ rest) acc _ hlt, hlen,
          show acc ++ 0xc0 :: t = (acc ++ [0xc0]) ++ t by simp]
        exact ih (acc ++ [0xc0]) rest
      · simp only [hdb, hc0, if_false, List.cons_append, List.nil_append,
          List.append_assoc, List.length_cons]
        rw [readLoop_step_plain (t.length + 1) x (slipEscape t ++ rest) acc _ hlt hdb, hlen,
          show acc ++ x :: t = (acc ++ [x]) ++ t by simp]
        exact ih (acc ++ [x]) rest

/-- C1: for every byte string `b`, feeding the SLIP-escaped form produced
by `ESPROM.write` (escape `0xdb` to `0xdb 0xdd` first, then `0xc0` to
`0xdb 0xdc`) into the unescaping loop of `ESPROM.read` yields exactly
`b`, consuming exactly the escaped bytes and leaving any following port
bytes untouched. -/
theorem slip_escape_unescape_roundtrip (b rest : List Nat) :
    ESPROM.readLoop (b.length + 1) (slipEscape b ++ rest) [] b.length =
      ReadRes.ok b rest := by
  simpa using readLoop_slipEscape b [] rest

theorem not_mem_replaceByte (p : Nat) (r : List Nat) (hp : p ∉ r) :
    ∀ s : List Nat, p ∉ replaceByte p r s := by
  intro s
  induction s with
  | nil => simp [replaceByte]
  | cons c t ih =>
    simp only [replaceByte, List.mem_append]
    rintro (h | h)
    · by_cases hc : c = p
      · rw [if_pos hc] at h; exact hp h
      · rw [if_neg hc] at h; simp at h; exact hc h.symm
    · exact ih h

/-- C9: the buffer `ESPROM.write` emits is the escaped payload between a
leading and a trailing `0xc0` delimiter, and that escaped payload never
contains a raw `0xc0` byte — escaping `0xdb` before `0xc0` ensures the
substitutions cannot reintroduce an unescaped delimiter. -/
theorem write_no_raw_delimiter (p : List Nat) :
    ESPROM.writeBuf p = 0xc0 :: slipEscape p ++ [0xc0] ∧ 0xc0 ∉ slipEscape p := by
  refine ⟨rfl, ?_⟩
  exact not_mem_replaceByte 0xc0 [0xdb, 0xdc] (by decide)
    (replaceByte 0xdb [0xdb, 0xdd] p)

/-- C5 (refuting the termination claim): when the port yields no bytes —
every `self._port.read(1)` times out and returns the empty string — the
loop of `ESPROM.read` never terminates and never raises: `b = b + ''`
leaves the accumulator unchanged, so `read(1)` spins for every fuel
bound instead of propagating the timeout as a transport failure. -/
theorem read_timeout_diverges : ∀ fuel : Nat,
    ESPROM.readLoop fuel [] [] 1 = ReadRes.diverge := by
  intro fuel
  induction fuel with
  | zero => rfl
  | succ f ih => simpa [ESPROM.readLoop] using ih

/-! ## Checksum range lemmas -/

theorem checksum_lt_256 (data : List Nat) : ∀ state : Nat,
    (∀ b ∈ data, b < 256) → state < 256 → ESPROM.checksum data state < 256 := by
  induction data with
  | nil => intro state _ h; simpa [ESPROM.checksum] using h
  | cons b t ih =>
    intro state hd hs
    have hb : b < 256 := hd b (by simp)
    have hx : state ^^^ b < 256 := by
      have h2 : (256 : Nat) = 2 ^ 8 := by norm_num
      rw [h2] at hs hb ⊢
      exact Nat.xor_lt_two_pow hs hb
    simpa [ESPROM.checksum] using ih (state ^^^ b) (fun x hx2 => hd x (by simp [hx2])) hx

theorem saveChecksum_lt_256 (segs : List Segment) : ∀ state : Nat,
    (∀ s ∈ segs, ∀ b ∈ s.data, b < 256) → state < 256 → saveChecksum segs state < 256 := by
  induction segs with
  | nil => intro state _ h; simpa [saveChecksum] using h
  | cons s t ih =>
    intro state hd hs
    simp only [saveChecksum]
    exact ih _ (fun x hx => hd x (by simp [hx])) (checksum_lt_256 s.data state (hd s (by simp)) hs)

/-- C10: `ESPROM.checksum` maps a byte string and a state in `[0, 255]`
to a value in `[0, 255]` (XOR never leaves the byte range), so the
running checksum `save` seeds with `0xef` and folds over all segment
payload bytes always fits in the single trailing byte it writes. -/
theorem checksum_fits_byte :
    (∀ (data : List Nat) (state : Nat), (∀ b ∈ data, b < 256) → state ≤ 255 →
      ESPROM.checksum data state ≤ 255) ∧
    (∀ segs : List Segment, (∀ s ∈ segs, ∀ b ∈ s.data, b < 256) →
      saveChecksum segs 0xef ≤ 255) := by
  constructor
  · intro data state hd hs
    have := checksum_lt_256 data state hd (by omega)
    omega
  · intro segs hd
    have := saveChecksum_lt_256 segs 0xef hd (by norm_num)
    omega

/-- Witness for C10 at the spec's fixed two-segment example. -/
theorem checksum_fits_byte_witness :
    ESPROM.checksum [0, 0, 0, 0, 255, 255, 255, 255] 0xef ≤ 255 ∧
    saveChecksum [⟨0x40100000, 4, [0, 0, 0, 0]⟩, ⟨0x3ffe8000, 4, [255, 255, 255, 255]⟩]
      0xef ≤ 255 :=
  ⟨checksum_fits_byte.1 [0, 0, 0, 0, 255, 255, 255, 255] 0xef (by decide) (by decide),
   checksum_fits_byte.2 [⟨0x40100000, 4, [0, 0, 0, 0]⟩, ⟨0x3ffe8000, 4, [255, 255, 255, 255]⟩]
     (by decide)⟩

/-! ## Erase-size computation (C2) -/

/-- C2: for sizes `S ≥ 0` and 4096-aligned offsets `O`, the erase size
computed inside `flash_begin` equals the spec's formula
(`total_sectors = ceil(S/4096)`,
`head_sectors = min(16 - ((O/4096) mod 16), total_sectors)`, true branch
`(total_sectors - head_sectors)*4096`, false branch
`ceil(total_sectors/2)*4096`), and takes the three stated values at
`S = 4096`, `S = 100000` and `S = 1000000` with `O = 0`. -/
theorem flash_erase_size_spec :
    (∀ S O : Nat, O % 4096 = 0 → ESPROM.flashEraseSize S O = specEraseSize S O) ∧
    ESPROM.flashEraseSize 4096 0 = 4096 ∧
    ESPROM.flashEraseSize 100000 0 = 53248 ∧
    ESPROM.flashEraseSize 1000000 0 = 937984 := by
  refine ⟨?_, by decide, by decide, by decide⟩
  intro S O _
  simp only [ESPROM.flashEraseSize, specEraseSize, ge_iff_le]
  have htot : (if 0 = S % 4096 then S / 4096 else 1 + S / 4096) = (S + 4095) / 4096 := by
    by_cases h : 0 = S % 4096
    · rw [if_pos h]; omega
    · rw [if_neg h]; omega
  rw [htot]
  have hhead :
      (if (S + 4095) / 4096 ≤ 16 - O / 4096 % 16 then (S + 4095) / 4096
        else 16 - O / 4096 % 16) = min (16 - O / 4096 % 16) ((S + 4095) / 4096) := by
    rw [Nat.min_def]
    split_ifs <;> omega
  rw [hhead]

/-- Witness for C2's aligned-offset hypothesis, at `S = 100000, O = 0`. -/
theorem flash_erase_size_spec_witness :
    (0 : Nat) % 4096 = 0 ∧ ESPROM.flashEraseSize 100000 0 = specEraseSize 100000 0 :=
  ⟨by decide, flash_erase_size_spec.1 100000 0 (by decide)⟩

/-! ## Command retry loop (C3) -/

theorem commandLoop_mismatch (o : Nat) (stream : Nat → Resp) :
    ∀ retries calls : Nat, (∀ j, j < retries → (stream (calls + j)).op_ret ≠ o) →
      ESPROM.commandLoop (some o) stream retries calls = CmdResult.mismatch (calls + retries) := by
  intro retries
  induction retries with
  | zero => intro calls _; simp [ESPROM.commandLoop]
  | succ r ih =>
    intro calls h
    have h0 : (stream calls).op_ret ≠ o := by simpa using h 0 (by omega)
    have hcond : ¬((some o : Option Nat) = none ∨ some o = some (stream calls).op_ret) := by
      simp only [reduceCtorEq, Option.some.injEq, false_or]
      exact fun he => h0 he.symm
    simp only [ESPROM.commandLoop, if_neg hcond]
    have hrec := ih (calls + 1) (fun j hj => by
      have := h (j + 1) (by omega)
      simpa [Nat.add_assoc, Nat.add_comm 1 j] using this)
    rw [hrec]
    have : calls + 1 + r = calls + (r + 1) := by omega
    rw [this]

theorem commandLoop_ok (o : Nat) (stream : Nat → Resp) :
    ∀ retries calls i : Nat, calls ≤ i → i < calls + retries →
      (∀ j, calls ≤ j → j < i → (stream j).op_ret ≠ o) → (stream i).op_ret = o →
      ESPROM.commandLoop (some o) stream retries calls =
        CmdResult.ok (stream i).val (stream i).body (i + 1) := by
  intro retries
  induction retries with
  | zero => intro calls i h1 h2 _ _; exact absurd h2 (by omega)
  | succ r ih =>
    intro calls i h1 h2 hpre hmatch
    by_cases hci : i = calls
    · subst hci
      have hcond : ((some o : Option Nat) = none ∨ some o = some (stream i).op_ret) :=
        Or.inr (by rw [hmatch])
      simp only [ESPROM.commandLoop, if_pos hcond]
    · have h0 : (stream calls).op_ret ≠ o := hpre calls (le_refl _) (by omega)
      have hcond : ¬((some o : Option Nat) = none ∨ some o = some (stream calls).op_ret) := by
        simp only [reduceCtorEq, Option.some.injEq, false_or]
        exact fun he => h0 he.symm
      simp only [ESPROM.commandLoop, if_neg hcond]
      exact ih (calls + 1) i (by omega) (by omega) (fun j hj1 hj2 => hpre j (by omega) hj2) hmatch

/-- C3: against a stream of well-formed responses, `command(op, ...)`
with a request opcode whose responses never match calls
`receive_response` exactly 100 times and only then raises the fatal
response-mismatch error — never earlier, never a 101st call; and if the
first match arrives at call `i + 1 ≤ 100`, it returns that response's
`(value, body)` after exactly `i + 1` calls. -/
theorem command_retry_budget :
    (∀ (o : Nat) (stream : Nat → Resp), (∀ i, (stream i).op_ret ≠ o) →
      ESPROM.command (some o) stream = CmdResult.mismatch 100) ∧
    (∀ (o : Nat) (stream : Nat → Resp) (i : Nat), i < 100 →
      (∀ j, j < i → (stream j).op_ret ≠ o) → (stream i).op_ret = o →
      ESPROM.command (some o) stream = CmdResult.ok (stream i).val (stream i).body (i + 1)) := by
  constructor
  · intro o stream h
    simpa [ESPROM.command] using commandLoop_mismatch o stream 100 0 (fun j _ => by simpa using h j)
  · intro o stream i hi hpre hm
    simpa [ESPROM.command] using
      commandLoop_ok o stream 100 0 i (by omega) (by omega) (fun j _ hj => hpre j hj) hm

/-- Witness for C3: a stream whose opcode never matches raises after 100
calls; a stream matching first at the 4th call returns its value and
body after 4 calls. -/
theorem command_retry_budget_witness :
    ESPROM.command (some 8) (fun _ => ⟨0, 0, []⟩) = CmdResult.mismatch 100 ∧
    ESPROM.command (some 8) (fun n => if n = 3 then ⟨8, 7, [1, 2]⟩ else ⟨0, 0, []⟩) =
      CmdResult.ok 7 [1, 2] 4 :=
  ⟨command_retry_budget.1 8 (fun _ => ⟨0, 0, []⟩) (fun i => by simp),
   command_retry_budget.2 8 (fun n => if n = 3 then ⟨8, 7, [1, 2]⟩ else ⟨0, 0, []⟩) 3
     (by omega) (by decide) (by decide)⟩

/-! ## flash_begin timeout discipline (C4) and error type (C8) -/

/-- C4 counterexample: entering `flash_begin` with timeout 5 and a
response body failing the success-code check, the method exits by
raising with the port timeout equal to 10, not the entry value 5 — the
raise at line 325 skips the restoring assignment at line 326. -/
theorem flash_begin_timeout_cex :
    ¬ (ESPROM.flash_begin 5 0 0 [1, 0]).timeout = 5 := by decide

/-- C4 (amended): `flash_begin` restores the channel timeout to its
entry value only on the normal-return path; when the success-code check
fails it exits by raising with the timeout left at 10. -/
theorem flash_begin_timeout_restore (t0 S O : Nat) (body : List Nat) :
    (body = [0, 0] → (ESPROM.flash_begin t0 S O body).timeout = t0 ∧
      (ESPROM.flash_begin t0 S O body).raised = none) ∧
    (body ≠ [0, 0] → (ESPROM.flash_begin t0 S O body).timeout = 10 ∧
      (ESPROM.flash_begin t0 S O body).raised = some ExcKind.plainException) := by
  constructor
  · intro h; subst h; simp [ESPROM.flash_begin]
  · intro h; simp [ESPROM.flash_begin, h]

/-- Witness for C4 (amended) at entry timeout 5 with a succeeding and a
failing response body. -/
theorem flash_begin_timeout_restore_witness :
    ((ESPROM.flash_begin 5 0 0 [0, 0]).timeout = 5 ∧
      (ESPROM.flash_begin 5 0 0 [0, 0]).raised = none) ∧
    ((ESPROM.flash_begin 5 0 0 [1, 0]).timeout = 10 ∧
      (ESPROM.flash_begin 5 0 0 [1, 0]).raised = some ExcKind.plainException) :=
  ⟨(flash_begin_timeout_restore 5 0 0 [0, 0]).1 rfl,
   (flash_begin_timeout_restore 5 0 0 [1, 0]).2 (by decide)⟩

/-- C8 (refuting the error-type claim): when flash-begin's success-code
check fails, the exception raised (line 325) is a bare `Exception`, not
the program's typed `FatalError`; the top-level guard catches only
`FatalError`, so this failure does not produce exit code 2. -/
theorem flash_begin_error_not_fatal :
    (ESPROM.flash_begin 5 0 0 [1, 0]).raised = some ExcKind.plainException ∧
    ExcKind.plainException ≠ ExcKind.fatalError ∧
    topLevelExitCode ExcKind.plainException ≠ 2 := by decide

/-! ## Image codec lemmas (C6, C7) -/

theorem decodeU32_u32le (x : Nat) (h : x < 4294967296) :
    decodeU32 (x % 256) (x / 256 % 256) (x / 65536 % 256) (x / 16777216 % 256) = x := by
  simp only [decodeU32]
  omega

theorem parseSegments_segmentsBytes (segs : List Segment) : ∀ (pos : Nat) (rest : List Nat),
    (∀ s ∈ segs, s.size = s.data.length ∧ 0x3ffe0000 ≤ s.offset ∧
      s.offset ≤ 0x40200000 ∧ s.size ≤ 65536) →
    parseSegments segs.length (segmentsBytes segs ++ rest) pos =
      Except.ok (segs, rest, pos + (segmentsBytes segs).length) := by
  induction segs with
  | nil => intro pos rest _; simp [segmentsBytes, parseSegments]
  | cons s t ih =>
    intro pos rest hseg
    obtain ⟨hsize, ho1, ho2, hz⟩ := hseg s (by simp)
    have hofflt : s.offset < 4294967296 := by omega
    have hszlt : s.size < 4294967296 := by omega
    simp only [segmentsBytes, segmentBytes, u32le, List.length_cons, List.cons_append,
      List.nil_append, List.append_assoc]
    simp only [parseSegments, decodeU32_u32le s.offset hofflt, decodeU32_u32le s.size hszlt]
    rw [if_neg (by push_neg; exact ⟨ho2, ho1, hz⟩)]
    rw [hsize, List.take_left, List.drop_left]
    rw [if_neg (by omega)]
    rw [ih (pos + 8 + s.data.length) rest (fun x hx => hseg x (by simp [hx]))]
    have heta : ({ offset := s.offset, size := s.data.length, data := s.data } : Segment) = s := by
      rw [← hsize]
    dsimp only
    rw [heta]
    simp only [Except.ok.injEq, Prod.mk.injEq, List.length_append]
    refine ⟨trivial, trivial, ?_⟩
    omega

theorem drop_replicate_cons (k c : Nat) :
    (List.replicate k (0 : Nat) ++ [c]).drop k = [c] := by
  have h := List.drop_left (List.replicate k (0 : Nat)) [c]
  rwa [List.length_replicate] at h

/-- C6: for an image whose segment list has at most 16 entries, whose
segments carry their data length as stored size, load addresses inside
`[0x3ffe0000, 0x40200000]`, sizes at most 65536 and byte-valued data,
and whose flash fields fit in a byte with the entry point in `u32`:
parsing the bytes `save` writes yields the same segments, entry point
and flash fields, with the stored trailing checksum byte equal to the
checksum `save` computed — which is itself a byte, so recomputing the
seed-`0xef` fold over the parsed segments reproduces the stored byte. -/
theorem image_save_parse_roundtrip (img : ESPFirmwareImage)
    (hn : img.segments.length ≤ 16)
    (hseg : ∀ s ∈ img.segments, s.size = s.data.length ∧ 0x3ffe0000 ≤ s.offset ∧
      s.offset ≤ 0x40200000 ∧ s.size ≤ 65536)
    (hbytes : ∀ s ∈ img.segments, ∀ b ∈ s.data, b < 256)
    (hfm : img.flash_mode < 256) (hfsf : img.flash_size_freq < 256)
    (he : img.entrypoint < 4294967296) :
    ESPFirmwareImage.parse (ESPFirmwareImage.save img) =
      Except.ok ⟨img.segments, img.entrypoint, img.flash_mode, img.flash_size_freq,
        saveChecksum img.segments 0xef⟩ ∧
    saveChecksum img.segments 0xef ≤ 255 := by
  refine ⟨?_, by have := saveChecksum_lt_256 img.segments 0xef hbytes (by norm_num); omega⟩
  have hL : (0xe9 :: img.segments.length :: img.flash_mode :: img.flash_size_freq ::
      u32le img.entrypoint).length = 8 := by simp [u32le]
  simp only [ESPFirmwareImage.save, hL]
  simp only [u32le, List.cons_append, List.nil_append, List.append_assoc]
  simp only [ESPFirmwareImage.parse]
  rw [if_neg (by push_neg; exact ⟨rfl, by omega⟩)]
  rw [parseSegments_segmentsBytes img.segments 8
    (List.replicate (15 - (8 + (segmentsBytes img.segments).length) % 16) 0 ++
      [saveChecksum img.segments 0xef]) hseg]
  dsimp only
  rw [drop_replicate_cons]
  rw [decodeU32_u32le img.entrypoint he]

/-- Witness for C6 at a concrete one-segment image. -/
theorem image_save_parse_roundtrip_witness :
    ESPFirmwareImage.parse (ESPFirmwareImage.save
        ⟨[⟨0x40100000, 4, [1, 2, 3, 4]⟩], 0x40100000, 2, 0x40⟩) =
      Except.ok ⟨[⟨0x40100000, 4, [1, 2, 3, 4]⟩], 0x40100000, 2, 0x40,
        saveChecksum [⟨0x40100000, 4, [1, 2, 3, 4]⟩] 0xef⟩ ∧
    saveChecksum [⟨0x40100000, 4, [1, 2, 3, 4]⟩] 0xef ≤ 255 :=
  image_save_parse_roundtrip ⟨[⟨0x40100000, 4, [1, 2, 3, 4]⟩], 0x40100000, 2, 0x40⟩
    (by decide) (by decide) (by decide) (by decide) (by decide) (by decide)

/-- C7: parsing a file whose header declares 17 segments raises the
invalid-image error with the file position still at the 8-byte header —
no bytes past the header are read; and parsing whose first 8-byte
segment header declares a size above 65536 (such as 70000) or an offset
outside `[0x3ffe0000, 0x40200000]` raises the suspicious-segment error
at position 16, before any of the segment's data bytes are read.  The
error position in the model is `f.tell()` at the raise. -/
theorem parse_header_errors :
    (∀ fm fsf e0 e1 e2 e3 : Nat, ∀ rest : List Nat,
      ESPFirmwareImage.parse (0xe9 :: 17 :: fm :: fsf :: e0 :: e1 :: e2 :: e3 :: rest) =
        Except.error (ImgErr.invalidImage, 8)) ∧
    (∀ count fm fsf e0 e1 e2 e3 off sz : Nat, ∀ rest : List Nat,
      1 ≤ count → count ≤ 16 → off < 4294967296 → sz < 4294967296 →
      (0x40200000 < off ∨ off < 0x3ffe0000 ∨ 65536 < sz) →
      ESPFirmwareImage.parse (0xe9 :: count :: fm :: fsf :: e0 :: e1 :: e2 :: e3 ::
          (u32le off ++ u32le sz ++ rest)) =
        Except.error (ImgErr.suspiciousSegment off sz, 16)) := by
  constructor
  · intro fm fsf e0 e1 e2 e3 rest
    simp [ESPFirmwareImage.parse]
  · intro count fm fsf e0 e1 e2 e3 off sz rest h1 h16 hoff hsz hbad
    obtain ⟨m, rfl⟩ : ∃ m, count = m + 1 := ⟨count - 1, by omega⟩
    simp only [u32le, List.cons_append, List.nil_append, List.append_assoc]
    simp only [ESPFirmwareImage.parse]
    rw [if_neg (by push_neg; exact ⟨rfl, by omega⟩)]
    simp only [parseSegments, decodeU32_u32le off hoff, decodeU32_u32le sz hsz]
    rw [if_pos hbad]

/-- Witness for C7: a 17-segment header on an 8-byte file, and a
first-segment header declaring size 70000 at a legal offset. -/
theorem parse_header_errors_witness :
    ESPFirmwareImage.parse (0xe9 :: 17 :: 0 :: 0 :: 0 :: 0 :: 0 :: 0 :: []) =
      Except.error (ImgErr.invalidImage, 8) ∧
    ESPFirmwareImage.parse (0xe9 :: 1 :: 0 :: 0 :: 0 :: 0 :: 0 :: 0 ::
        (u32le 0x40100000 ++ u32le 70000 ++ [])) =
      Except.error (ImgErr.suspiciousSegment 0x40100000 70000, 16) :=
  ⟨parse_header_errors.1 0 0 0 0 0 0 [],
   parse_header_errors.2 1 0 0 0 0 0 0 0x40100000 70000 [] (by decide) (by decide)
     (by decide) (by decide) (Or.inr (Or.inr (by decide)))⟩
